import Mathlib

/-!
Shallow embedding of the `SpaceSecurityMiddleware` access-control middleware
(server space-security stage of the transaction/query pipeline).

Conventions of the embedding:
* All platform identifiers (`Ref<Account>`, `Ref<Space>`, `Ref<Class>`) are
  strings, as in the source.
* JavaScript `Record<K, V>` objects are modelled as insertion-ordered
  association lists with `recGet` / `recSet`; assigning `undefined` to a key
  (as `removeSpace` does for `privateSpaces`) keeps the key with value `none`,
  exactly like the source.
* The mutable middleware instance becomes explicit state passing over the
  `SpaceSecurityMiddleware` record; `async` methods that can `throw` return
  `Except PlatformErr _`.
* Collaborators that live outside this file's source (account resolution,
  the class-hierarchy oracle, the storage engine, document materialization)
  are carried in a `SessionContext` record; the definitions modelling them
  are marked `Modelled from the spec:`.
-/

set_option linter.unusedVariables false

abbrev Ref := String

/-- Errors of the middleware: `PlatformError` with status `Forbidden`, and the
failure of account resolution (`getUser` rejecting). -/
inductive PlatformErr where
  | forbidden
  | resolutionFailed
deriving DecidableEq

/-- The `Space` document: `_id`, `private` flag and `members` list. -/
structure Space where
  id : Ref
  isPrivate : Bool
  members : List Ref
deriving DecidableEq

/-- A joined sub-object attached to a query result (`AttachedDoc` in a
`$lookup`): only its identity and its `space` matter here. -/
structure SubDoc where
  sid : Ref
  space : Ref
deriving DecidableEq

/-- A `LookupData` value: either an array of sub-objects or a single optional
sub-object. -/
inductive LookupVal where
  | arr (l : List SubDoc)
  | single (d : Option SubDoc)
deriving DecidableEq

/-- A document returned by the storage engine, with its `space` and optional
`$lookup` payload. -/
structure FoundDoc where
  space : Ref
  lookup : Option (List (String × LookupVal))
deriving DecidableEq

/-- Modelled from the spec: the collaborators consumed by the middleware that
are outside this file's source —
`userResult` is the outcome of `getUser(storage, ctx)` (account resolution,
"may fail"); `isSpaceDerivedC c` is the hierarchy oracle
`hierarchy.isDerived(c, core.class.Space)`; `spaces` is the ground-truth space
collection behind `storage.findAll`; `docs` are the documents the next
pipeline stage would return for `findAll`; `email` is the account-directory
lookup used by `getTargets`. -/
structure SessionContext where
  userResult : Except PlatformErr Ref
  isSpaceDerivedC : Ref → Bool
  spaces : List Space
  docs : List FoundDoc
  email : Ref → Option String

/-- Lookup in a JS object modelled as an association list (first binding of
the key wins; there is at most one in states reachable through `recSet`). -/
def recGet {α : Type} : List (Ref × α) → Ref → Option α
  | [], _ => none
  | p :: r, k => if p.1 = k then some p.2 else recGet r k

/-- Assignment `obj[k] = v` on a JS object: replaces the binding in place, or
appends a new binding (JS objects keep insertion order). -/
def recSet {α : Type} : List (Ref × α) → Ref → α → List (Ref × α)
  | [], k, v => [(k, v)]
  | p :: r, k, v => if p.1 = k then (k, v) :: r else p :: recSet r k v

/-- The middleware's mutable fields (the `AccessIndex`).
`privateSpaces` maps ids to `Option Space` because the source assigns
`undefined` to tombstone an entry while the key remains. -/
structure SpaceSecurityMiddleware where
  allowedSpaces : List (Ref × List Ref)
  privateSpaces : List (Ref × Option Space)
  publicSpaces : List Ref
deriving DecidableEq

/-- Reading `this.privateSpaces[k]`: an absent key and a key tombstoned with
`undefined` both read back as `undefined`. -/
def privGet (r : List (Ref × Option Space)) (k : Ref) : Option Space :=
  match recGet r k with
  | some v => v
  | none => none

/-- The fixed list of always-allowed system spaces. -/
def systemSpaces : List Ref :=
  ["core:space:Configuration", "core:space:DerivedTx", "core:space:Model",
   "core:space:Space", "core:space:Tx"]

/-- The distinguished `core.account.System` account. -/
def systemAccount : Ref := "core:account:System"

/-- `addMemberSpace(member, space)`: push `space` onto the account's
allowed-space array (creating it when absent). -/
def addMemberSpace (st : SpaceSecurityMiddleware) (member space : Ref) :
    SpaceSecurityMiddleware :=
  let arr := (recGet st.allowedSpaces member).getD []
  { st with allowedSpaces := recSet st.allowedSpaces member (arr ++ [space]) }

/-- `addSpace(space)`: record the private space and link every member. -/
def addSpace (st : SpaceSecurityMiddleware) (space : Space) :
    SpaceSecurityMiddleware :=
  let st1 := { st with privateSpaces := recSet st.privateSpaces space.id (some space) }
  space.members.foldl (fun s m => addMemberSpace s m space.id) st1

/-- `removeMemberSpace(member, space)`: delete the first occurrence of
`space` from the account's array (`findIndex` + `splice`); no-op when the
account has no entry or the id is not found. -/
def removeMemberSpace (st : SpaceSecurityMiddleware) (member space : Ref) :
    SpaceSecurityMiddleware :=
  match recGet st.allowedSpaces member with
  | none => st
  | some arr =>
    if space ∈ arr then
      { st with allowedSpaces := recSet st.allowedSpaces member (arr.erase space) }
    else st

/-- `removeSpace(_id)`: unlink every member of the recorded space, then
tombstone the `privateSpaces` entry with `undefined`. -/
def removeSpace (st : SpaceSecurityMiddleware) (id : Ref) :
    SpaceSecurityMiddleware :=
  match privGet st.privateSpaces id with
  | none => st
  | some space =>
    let st1 := space.members.foldl (fun s m => removeMemberSpace s m space.id) st
    { st1 with privateSpaces := recSet st1.privateSpaces id none }

/-- `removePublicSpace(_id)`: splice out the first occurrence, if present. -/
def removePublicSpace (st : SpaceSecurityMiddleware) (id : Ref) :
    SpaceSecurityMiddleware :=
  if id ∈ st.publicSpaces then
    { st with publicSpaces := st.publicSpaces.erase id }
  else st

/-- The `_class` tag of a transaction. `otherCud` stands for the remaining
`TxCUD`-derived classes, `nonCud` for everything else. -/
inductive TxKind where
  | createDoc
  | updateDoc
  | removeDoc
  | otherCud
  | nonCud
deriving DecidableEq

/-- `hierarchy.isDerived(tx._class, core.class.TxCUD)`. -/
def isTxCUD : TxKind → Bool
  | .nonCud => false
  | _ => true

/-- A `$push` operand on `members`: a single account or a `$each` batch. -/
inductive PushVal where
  | one (a : Ref)
  | each (batch : List Ref)
deriving DecidableEq

/-- A `$pull` operand on `members`: a single account, or an object whose
`$in` inclusion set may be absent. -/
inductive PullVal where
  | one (a : Ref)
  | inQuery (l : Option (List Ref))
deriving DecidableEq

/-- The operation set of a `TxUpdateDoc<Space>`: `private` assignment, full
`members` replacement, `$push.members` and `$pull.members`. -/
structure UpdateOps where
  priv : Option Bool
  members : Option (List Ref)
  pushMembers : Option PushVal
  pullMembers : Option PullVal
deriving DecidableEq

/-- The attribute set of a `TxCreateDoc<Space>`. -/
structure SpaceAttrs where
  isPrivate : Bool
  members : List Ref
deriving DecidableEq

/-- A transaction: `_class` tag, `objectClass`, `objectId`, `objectSpace`,
plus the create attributes and update operations (meaningful for the
corresponding `_class`). -/
structure Tx where
  txClass : TxKind
  objectClass : Ref
  objectId : Ref
  objectSpace : Ref
  attributes : SpaceAttrs
  operations : UpdateOps
deriving DecidableEq

/-- Modelled from the spec: `TxProcessor.buildDoc2Doc` — materialize the
`Space` value described by a create transaction. -/
def buildDoc2Doc (t : Tx) : Option Space :=
  some ⟨t.objectId, t.attributes.isPrivate, t.attributes.members⟩

/-- Modelled from the spec: `TxProcessor.updateDoc2Doc` — given an existing
`Space` and an update transaction, produce the updated `Space` value (the
platform applies the operations onto the document in place). -/
def updateDoc2Doc (s : Space) (ops : UpdateOps) : Space :=
  let s1 := match ops.priv with
    | some b => { s with isPrivate := b }
    | none => s
  let s2 := match ops.members with
    | some ms => { s1 with members := ms }
    | none => s1
  let s3 := match ops.pushMembers with
    | some (.one a) => { s2 with members := s2.members ++ [a] }
    | some (.each l) => { s2 with members := s2.members ++ l }
    | none => s2
  match ops.pullMembers with
  | some (.one a) => { s3 with members := s3.members.filter (fun m => m ≠ a) }
  | some (.inQuery (some l)) => { s3 with members := s3.members.filter (fun m => m ∉ l) }
  | some (.inQuery none) => s3
  | none => s3

/-- `handleCreate`: track a created private space (materialized from the
transaction) or push the id onto `publicSpaces`. -/
def handleCreate (ctx : SessionContext) (st : SpaceSecurityMiddleware) (t : Tx) :
    SpaceSecurityMiddleware :=
  if !(ctx.isSpaceDerivedC t.objectClass) then st
  else if t.attributes.isPrivate then
    match buildDoc2Doc t with
    | some res => addSpace st res
    | none => st
  else { st with publicSpaces := st.publicSpaces ++ [t.objectId] }

/-- `pushMembersHandle`: `$push` with a `$each` batch or a single account. -/
def pushMembersHandle (st : SpaceSecurityMiddleware) (addedMembers : PushVal)
    (space : Ref) : SpaceSecurityMiddleware :=
  match addedMembers with
  | .each l => l.foldl (fun s m => addMemberSpace s m space) st
  | .one a => addMemberSpace st a space

/-- `pullMembersHandle`: `$pull` with an `$in` inclusion set (nothing happens
when `$in` is absent) or a single account. -/
def pullMembersHandle (st : SpaceSecurityMiddleware) (removedMembers : PullVal)
    (space : Ref) : SpaceSecurityMiddleware :=
  match removedMembers with
  | .inQuery (some l) => l.foldl (fun s m => removeMemberSpace s m space) st
  | .inQuery none => st
  | .one a => removeMemberSpace st a space

/-- `syncMembers`: the source builds `oldMembers` and `newMembers` as sets
over the same `members` argument and guards each branch with membership in
that very set, so neither branch can ever fire. JS `Set` construction and
`Set.has` are rendered as `List.dedup` and list membership. -/
def syncMembers (st : SpaceSecurityMiddleware) (members : List Ref)
    (space : Ref) : SpaceSecurityMiddleware :=
  let oldMembers := members.dedup
  let newMembers := members.dedup
  let st1 := oldMembers.foldl
    (fun s old => if old ∈ oldMembers then s else removeMemberSpace s old space) st
  newMembers.foldl
    (fun s newMem => if newMem ∈ newMembers then s else addMemberSpace s newMem space) st1

/-- `handleUpdate`: apply a `private`-flag flip (re-fetching the space from
storage when flipping to private), then — when the space is tracked private —
the `members` replacement, `$push` and `$pull` handlers, and finally the
in-place `updateDoc2Doc` mutation of the tracked space object. -/
def handleUpdate (ctx : SessionContext) (st : SpaceSecurityMiddleware) (t : Tx) :
    SpaceSecurityMiddleware :=
  if !(ctx.isSpaceDerivedC t.objectClass) then st
  else
    let st1 := match t.operations.priv with
      | some true =>
        match ctx.spaces.find? (fun s => s.id == t.objectId) with
        | some res =>
          let res1 := { res with isPrivate := true }
          removePublicSpace (addSpace st res1) res1.id
        | none => st
      | some false =>
        let s1 := removeSpace st t.objectId
        { s1 with publicSpaces := s1.publicSpaces ++ [t.objectId] }
      | none => st
    match privGet st1.privateSpaces t.objectId with
    | none => st1
    | some space =>
      let st2 := match t.operations.members with
        | some ms => syncMembers st1 ms space.id
        | none => st1
      let st3 := match t.operations.pushMembers with
        | some pv => pushMembersHandle st2 pv space.id
        | none => st2
      let st4 := match t.operations.pullMembers with
        | some pv => pullMembersHandle st3 pv space.id
        | none => st3
      let newPriv := recSet st4.privateSpaces t.objectId (some (updateDoc2Doc space t.operations))
      { st4 with privateSpaces := newPriv }

/-- `handleRemove`: guarded by `removeTx._class !== core.class.TxCreateDoc`;
when the guard lets it through it untracks the space from both maps. -/
def handleRemove (ctx : SessionContext) (st : SpaceSecurityMiddleware) (t : Tx) :
    SpaceSecurityMiddleware :=
  if !(ctx.isSpaceDerivedC t.objectClass) then st
  else if t.txClass ≠ TxKind.createDoc then st
  else removePublicSpace (removeSpace st t.objectId) t.objectId

/-- `handleTx`: dispatch a space-class transaction on its `_class` tag. -/
def handleTx (ctx : SessionContext) (st : SpaceSecurityMiddleware) (t : Tx) :
    SpaceSecurityMiddleware :=
  if t.txClass = TxKind.createDoc then handleCreate ctx st t
  else if t.txClass = TxKind.updateDoc then handleUpdate ctx st t
  else if t.txClass = TxKind.removeDoc then handleRemove ctx st t
  else st

/-- `getTargets`: resolve the member accounts to their directory emails
(accounts missing from the directory are dropped). -/
def getTargets (ctx : SessionContext) (accounts : Option (List Ref)) :
    Option (List String) :=
  match accounts with
  | none => none
  | some l => some (l.filterMap ctx.email)

/-- The index state `tx` runs its authorization check against: for a
space-class transaction the maintenance dispatch has already been applied. -/
def maintained (ctx : SessionContext) (st : SpaceSecurityMiddleware) (t : Tx) :
    SpaceSecurityMiddleware :=
  if ctx.isSpaceDerivedC t.objectClass then handleTx ctx st t else st

/-- The space id `tx` checks against `allowedSpaces`: the `objectId` for a
space-class transaction, the `objectSpace` otherwise. -/
def effectiveSpace (ctx : SessionContext) (t : Tx) : Ref :=
  if ctx.isSpaceDerivedC t.objectClass then t.objectId else t.objectSpace

/-- The `tx` middleware entry point. Returns the middleware state after the
call (the instance fields are mutated in place before any throw) together
with either the propagated error or the notification targets handed on with
the forwarded transaction; an `.ok` outcome is exactly a transaction that
reached `provideTx` (the next pipeline stage). -/
def tx (ctx : SessionContext) (st : SpaceSecurityMiddleware) (t : Tx) :
    SpaceSecurityMiddleware × Except PlatformErr (Option (List String)) :=
  if isTxCUD t.txClass then
    let st1 := maintained ctx st t
    match privGet st1.privateSpaces t.objectSpace with
    | none => (st1, .ok none)
    | some _ =>
      match ctx.userResult with
      | .error e => (st1, .error e)
      | .ok account =>
        if account = systemAccount then
          (st1, .ok (getTargets ctx ((privGet st1.privateSpaces t.objectSpace).map Space.members)))
        else
          match recGet st1.allowedSpaces account with
          | none => (st1, .error .forbidden)
          | some allowed =>
            if effectiveSpace ctx t ∈ allowed then
              (st1, .ok (getTargets ctx ((privGet st1.privateSpaces t.objectSpace).map Space.members)))
            else (st1, .error .forbidden)
  else (st, .ok none)

/-- `getAllAllowedSpaces`: the caller's permitted-space set; account
resolution failure is caught and degrades to public plus system spaces. -/
def getAllAllowedSpaces (ctx : SessionContext) (st : SpaceSecurityMiddleware) :
    List Ref :=
  match ctx.userResult with
  | .ok account =>
    ((recGet st.allowedSpaces account).getD []) ++ [account]
      ++ st.publicSpaces ++ systemSpaces
  | .error _ => st.publicSpaces ++ systemSpaces

/-- An `ObjQueryType` over `space`: a literal id, or an object whose `$in`
inclusion set may be absent. -/
inductive ObjQuery where
  | lit (s : Ref)
  | obj (inSet : Option (List Ref))
deriving DecidableEq

/-- `mergeQuery`: reject a literal id outside the permitted set, intersect an
`$in` set with the permitted set, and constrain any other object query to the
permitted set. -/
def mergeQuery (ctx : SessionContext) (st : SpaceSecurityMiddleware)
    (q : ObjQuery) : Except PlatformErr ObjQuery :=
  let spaces := getAllAllowedSpaces ctx st
  match q with
  | .lit s => if s ∈ spaces then .ok (.lit s) else .error .forbidden
  | .obj (some l) => .ok (.obj (some (l.filter (fun p => spaces.contains p))))
  | .obj none => .ok (.obj (some spaces))

/-- The slice of a `DocumentQuery` the middleware touches: its `space`
constraint. -/
structure Query where
  space : Option ObjQuery

/-- Modelled from the spec: the storage collaborator executes the rewritten
query; only the `space` constraint matters for these claims. A document
matches a literal constraint by equality and an `$in` constraint by
membership. -/
def matchesSpace : ObjQuery → Ref → Bool
  | .lit s, sp => sp == s
  | .obj (some l), sp => l.contains sp
  | .obj none, _ => true

/-- `isUnavailable`: a space is unavailable to the caller when it is tracked
private and the resolved, non-system caller has no `allowedSpaces` link to
it. Resolution runs (and can fail) only for tracked-private spaces. -/
def isUnavailable (ctx : SessionContext) (st : SpaceSecurityMiddleware)
    (space : Ref) : Except PlatformErr Bool :=
  match privGet st.privateSpaces space with
  | none => .ok false
  | some _ =>
    match ctx.userResult with
    | .error e => .error e
    | .ok account =>
      if account = systemAccount then .ok false
      else
        .ok (match recGet st.allowedSpaces account with
          | none => true
          | some l => if space ∈ l then false else true)

/-- The loop body of `filterLookup` over an array-valued lookup entry. -/
def filterArr (ctx : SessionContext) (st : SpaceSecurityMiddleware) :
    List SubDoc → Except PlatformErr (List SubDoc)
  | [] => .ok []
  | d :: ds =>
    match isUnavailable ctx st d.space with
    | .error e => .error e
    | .ok u =>
      match filterArr ctx st ds with
      | .error e => .error e
      | .ok rest => .ok (if u then rest else d :: rest)

/-- One lookup entry of `filterLookup`: arrays are filtered, single values
are nulled out when unavailable. -/
def filterVal (ctx : SessionContext) (st : SpaceSecurityMiddleware) :
    LookupVal → Except PlatformErr LookupVal
  | .arr l =>
    match filterArr ctx st l with
    | .error e => .error e
    | .ok l1 => .ok (.arr l1)
  | .single (some d) =>
    match isUnavailable ctx st d.space with
    | .error e => .error e
    | .ok u => .ok (if u then .single none else .single (some d))
  | .single none => .ok (.single none)

/-- `filterLookup`: rewrite every entry of a `$lookup` record in place. -/
def filterLookup (ctx : SessionContext) (st : SpaceSecurityMiddleware) :
    List (String × LookupVal) → Except PlatformErr (List (String × LookupVal))
  | [] => .ok []
  | (k, v) :: rest =>
    match filterVal ctx st v with
    | .error e => .error e
    | .ok v1 =>
      match filterLookup ctx st rest with
      | .error e => .error e
      | .ok rest1 => .ok ((k, v1) :: rest1)

/-- The per-result step of `findAll`'s lookup pass: documents without a
`$lookup` payload are untouched. -/
def filterResultDoc (ctx : SessionContext) (st : SpaceSecurityMiddleware)
    (d : FoundDoc) : Except PlatformErr FoundDoc :=
  match d.lookup with
  | none => .ok d
  | some lk =>
    match filterLookup ctx st lk with
    | .error e => .error e
    | .ok lk1 => .ok { d with lookup := some lk1 }

/-- The lookup pass of `findAll` over the whole result set. -/
def filterDocs (ctx : SessionContext) (st : SpaceSecurityMiddleware) :
    List FoundDoc → Except PlatformErr (List FoundDoc)
  | [] => .ok []
  | d :: ds =>
    match filterResultDoc ctx st d with
    | .error e => .error e
    | .ok d1 =>
      match filterDocs ctx st ds with
      | .error e => .error e
      | .ok ds1 => .ok (d1 :: ds1)

/-- The `findAll` middleware entry point: rewrite the `space` constraint
(`mergeQuery` when present, the full permitted set otherwise), hand the query
to storage, and run the lookup pass when lookups were requested. -/
def findAll (ctx : SessionContext) (st : SpaceSecurityMiddleware) (q : Query)
    (lookupOpt : Bool) : Except PlatformErr (List FoundDoc) :=
  match (match q.space with
         | some sq => mergeQuery ctx st sq
         | none => .ok (ObjQuery.obj (some (getAllAllowedSpaces ctx st)))) with
  | .error e => .error e
  | .ok sq1 =>
    let found := ctx.docs.filter (fun d => matchesSpace sq1 d.space)
    if lookupOpt then filterDocs ctx st found else .ok found

/-- The availability rule of `isUnavailable` for an already-resolved caller;
used to state what `filterLookup` removes. -/
def isUnavailablePure (st : SpaceSecurityMiddleware) (account space : Ref) :
    Bool :=
  match privGet st.privateSpaces space with
  | none => false
  | some _ =>
    if account = systemAccount then false
    else
      match recGet st.allowedSpaces account with
      | none => true
      | some l => if space ∈ l then false else true

/-- The value `filterLookup` leaves in one entry for a resolved caller. -/
def filterValPure (st : SpaceSecurityMiddleware) (account : Ref) :
    LookupVal → LookupVal
  | .arr l => .arr (l.filter (fun d => !(isUnavailablePure st account d.space)))
  | .single (some d) =>
    if isUnavailablePure st account d.space then .single none else .single (some d)
  | .single none => .single none

/-- The record `filterLookup` produces for a resolved caller. -/
def filterLookupPure (st : SpaceSecurityMiddleware) (account : Ref)
    (lk : List (String × LookupVal)) : List (String × LookupVal) :=
  lk.map (fun p => (p.1, filterValPure st account p.2))

/-! Helper lemmas about the record operations and the mutators. -/

theorem recGet_recSet_self {α : Type} (r : List (Ref × α)) (k : Ref) (v : α) :
    recGet (recSet r k v) k = some v := by
  induction r with
  | nil => simp [recSet, recGet]
  | cons p r ih =>
    by_cases h : p.1 = k
    · simp [recSet, recGet, h]
    · simp [recSet, recGet, h, ih]

theorem recSet_recSet_self {α : Type} (r : List (Ref × α)) (k : Ref) (v w : α) :
    recSet (recSet r k v) k w = recSet r k w := by
  induction r with
  | nil => simp [recSet]
  | cons p r ih =>
    by_cases h : p.1 = k
    · simp [recSet, h]
    · simp [recSet, h, ih]

theorem addMemberSpace_privateSpaces (st : SpaceSecurityMiddleware)
    (m sp : Ref) : (addMemberSpace st m sp).privateSpaces = st.privateSpaces := rfl

theorem foldl_addMemberSpace_privateSpaces (l : List Ref) (sp : Ref) :
    ∀ st : SpaceSecurityMiddleware,
    (l.foldl (fun s m => addMemberSpace s m sp) st).privateSpaces = st.privateSpaces := by
  induction l with
  | nil => intro st; rfl
  | cons a l ih => intro st; simp [List.foldl_cons, ih, addMemberSpace_privateSpaces]

theorem foldl_guard_id (f : SpaceSecurityMiddleware → Ref → SpaceSecurityMiddleware)
    (guard : List Ref) :
    ∀ (l : List Ref) (st : SpaceSecurityMiddleware), (∀ x ∈ l, x ∈ guard) →
    l.foldl (fun s x => if x ∈ guard then s else f s x) st = st := by
  intro l
  induction l with
  | nil => intro st _; rfl
  | cons a l ih =>
    intro st h
    simp only [List.foldl_cons]
    rw [if_pos (h a (by simp))]
    exact ih st (fun x hx => h x (by simp [hx]))

theorem syncMembers_eq (st : SpaceSecurityMiddleware) (members : List Ref)
    (space : Ref) : syncMembers st members space = st := by
  unfold syncMembers
  rw [foldl_guard_id _ _ _ _ (fun x hx => hx), foldl_guard_id _ _ _ _ (fun x hx => hx)]

/-- Claim C2: through `handleTx`, a `TxRemoveDoc` transaction never changes
the index. The dispatch enters `handleRemove` only when the transaction's
class is `TxRemoveDoc`, and `handleRemove` returns early unless that same
class equals `TxCreateDoc`, so the removal branch is unreachable and a
removed space stays tracked in `privateSpaces`/`publicSpaces`. -/
theorem handleTx_removeDoc_noop (ctx : SessionContext)
    (st : SpaceSecurityMiddleware) (cls oid osp : Ref) (attrs : SpaceAttrs)
    (ops : UpdateOps) :
    handleTx ctx st ⟨TxKind.removeDoc, cls, oid, osp, attrs, ops⟩ = st := by
  unfold handleTx handleRemove
  simp

/-- Claim C4: a full replacement of `members` in an update transaction never
changes `allowedSpaces`: `syncMembers` compares the new member set against
itself, so neither the add branch nor the remove branch can fire. -/
theorem handleUpdate_members_replace_noop (ctx : SessionContext)
    (st : SpaceSecurityMiddleware) (cls oid osp : Ref) (attrs : SpaceAttrs)
    (ms : List Ref) :
    (handleUpdate ctx st
      ⟨TxKind.updateDoc, cls, oid, osp, attrs, ⟨none, some ms, none, none⟩⟩).allowedSpaces
      = st.allowedSpaces := by
  unfold handleUpdate
  cases hd : ctx.isSpaceDerivedC cls
  · simp
  · simp only [Bool.not_true, Bool.false_eq_true, if_false]
    cases hp : privGet st.privateSpaces oid
    · simp [hp]
    · simp [hp, syncMembers_eq]

theorem erase_self_not_mem_of_count_le_one (l : List Ref) (i : Ref)
    (h : l.count i ≤ 1) : i ∉ l.erase i := by
  intro hmem
  have h1 : (l.erase i).count i = l.count i - 1 := List.count_erase_self i l
  have h2 : 0 < (l.erase i).count i := List.count_pos_iff.2 hmem
  omega

/-- Claim C9 (amended): `removeSpace` is idempotent unconditionally;
`removeMemberSpace` and `removePublicSpace` are idempotent whenever the
relevant entry holds at most one occurrence of the id; removing a link for
an account with no `allowedSpaces` entry is a no-op; repeating
`addMemberSpace` appends a duplicate link, so it is idempotent only up to
set membership of the account's allowed-space entry, and repeating
`addSpace` leaves `privateSpaces` (but not `allowedSpaces`) the same. -/
theorem mutators_idempotency :
    (∀ (st : SpaceSecurityMiddleware) (i : Ref),
      removeSpace (removeSpace st i) i = removeSpace st i)
  ∧ (∀ (st : SpaceSecurityMiddleware) (a i : Ref),
      ((recGet st.allowedSpaces a).getD []).count i ≤ 1 →
      removeMemberSpace (removeMemberSpace st a i) a i = removeMemberSpace st a i)
  ∧ (∀ (st : SpaceSecurityMiddleware) (i : Ref), st.publicSpaces.count i ≤ 1 →
      removePublicSpace (removePublicSpace st i) i = removePublicSpace st i)
  ∧ (∀ (st : SpaceSecurityMiddleware) (a i : Ref),
      recGet st.allowedSpaces a = none → removeMemberSpace st a i = st)
  ∧ (∀ (st : SpaceSecurityMiddleware) (a i x : Ref),
      x ∈ (recGet (addMemberSpace (addMemberSpace st a i) a i).allowedSpaces a).getD []
        ↔ x ∈ (recGet (addMemberSpace st a i).allowedSpaces a).getD [])
  ∧ (∀ (st : SpaceSecurityMiddleware) (s : Space),
      (addSpace (addSpace st s) s).privateSpaces = (addSpace st s).privateSpaces) := by
  refine ⟨?_, ?_, ?_, ?_, ?_, ?_⟩
  · intro st i
    cases hp : privGet st.privateSpaces i with
    | none => simp [removeSpace, hp]
    | some sp =>
      simp only [removeSpace, hp]
      have hafter :
          privGet (recSet (sp.members.foldl (fun s m => removeMemberSpace s m sp.id) st).privateSpaces i none) i = none := by
        simp [privGet, recGet_recSet_self]
      simp [hafter]
  · intro st a i h
    cases hr : recGet st.allowedSpaces a with
    | none => simp [removeMemberSpace, hr]
    | some arr =>
      by_cases hm : i ∈ arr
      · simp only [removeMemberSpace, hr, if_pos hm]
        have hr2 : recGet (recSet st.allowedSpaces a (arr.erase i)) a = some (arr.erase i) :=
          recGet_recSet_self _ _ _
        have hnm : i ∉ arr.erase i := by
          apply erase_self_not_mem_of_count_le_one
          simpa [hr] using h
        simp [removeMemberSpace, hr2, hnm]
      · simp [removeMemberSpace, hr, hm]
  · intro st i h
    by_cases hm : i ∈ st.publicSpaces
    · simp only [removePublicSpace, if_pos hm]
      have hnm : i ∉ st.publicSpaces.erase i := erase_self_not_mem_of_count_le_one _ _ h
      simp [removePublicSpace, hnm]
    · simp [removePublicSpace, hm]
  · intro st a i h
    simp [removeMemberSpace, h]
  · intro st a i x
    have h1 : recGet (addMemberSpace st a i).allowedSpaces a
        = some ((recGet st.allowedSpaces a).getD [] ++ [i]) := by
      simp [addMemberSpace, recGet_recSet_self]
    simp only [addMemberSpace, h1]
    simp [recGet_recSet_self]
  · intro st s
    have h1 : ∀ st1 : SpaceSecurityMiddleware, (addSpace st1 s).privateSpaces
        = recSet st1.privateSpaces s.id (some s) := by
      intro st1
      simp [addSpace, foldl_addMemberSpace_privateSpaces]
    rw [h1, h1, recSet_recSet_self]

/-- Claim C9, counterexample: applying `addMemberSpace` twice from the empty
index yields `allowedSpaces = [a ↦ [i, i]]`, not `[a ↦ [i]]` — the raw index
state differs from a single application. -/
theorem addMemberSpace_not_idempotent :
    addMemberSpace (addMemberSpace ⟨[], [], []⟩ "a" "i") "a" "i"
      ≠ addMemberSpace ⟨[], [], []⟩ "a" "i" := by
  decide

/-- Claim C9, witness for the amended theorem's hypotheses at concrete
inputs. -/
theorem mutators_idempotency_witness :
    (removeSpace (removeSpace ⟨[("A", ["P"])], [("P", some ⟨"P", true, ["A"]⟩)], []⟩ "P") "P"
      = removeSpace ⟨[("A", ["P"])], [("P", some ⟨"P", true, ["A"]⟩)], []⟩ "P")
  ∧ (removeMemberSpace (removeMemberSpace ⟨[("A", ["P", "Q"])], [], []⟩ "A" "P") "A" "P"
      = removeMemberSpace ⟨[("A", ["P", "Q"])], [], []⟩ "A" "P")
  ∧ (removePublicSpace (removePublicSpace ⟨[], [], ["P", "Q"]⟩ "P") "P"
      = removePublicSpace ⟨[], [], ["P", "Q"]⟩ "P")
  ∧ (removeMemberSpace ⟨[], [], []⟩ "A" "P" = (⟨[], [], []⟩ : SpaceSecurityMiddleware))
  ∧ ("Q" ∈ (recGet (addMemberSpace (addMemberSpace ⟨[("A", ["Q"])], [], []⟩ "A" "P") "A" "P").allowedSpaces "A").getD []
      ↔ "Q" ∈ (recGet (addMemberSpace ⟨[("A", ["Q"])], [], []⟩ "A" "P").allowedSpaces "A").getD [])
  ∧ ((addSpace (addSpace ⟨[], [], []⟩ ⟨"S", true, ["A"]⟩) ⟨"S", true, ["A"]⟩).privateSpaces
      = (addSpace ⟨[], [], []⟩ ⟨"S", true, ["A"]⟩).privateSpaces) :=
  ⟨mutators_idempotency.1 _ "P",
   mutators_idempotency.2.1 _ "A" "P" (by decide),
   mutators_idempotency.2.2.1 _ "P" (by decide),
   mutators_idempotency.2.2.2.1 _ "A" "P" (by decide),
   mutators_idempotency.2.2.2.2.1 _ "A" "P" "Q",
   mutators_idempotency.2.2.2.2.2 _ ⟨"S", true, ["A"]⟩⟩

/-- Claim C1 (amended): for a write transaction whose object class is not
Space-derived, whose effective space (here `objectSpace`) is tracked private
and whose resolved caller is neither the system account nor linked to that
space, `tx` fails with Forbidden, does not forward, and returns the index
exactly as it was. -/
theorem tx_private_nonmember_rejected (ctx : SessionContext)
    (st : SpaceSecurityMiddleware) (t : Tx) (a : Ref) (sp : Space)
    (h1 : isTxCUD t.txClass = true)
    (h2 : ctx.isSpaceDerivedC t.objectClass = false)
    (h3 : privGet st.privateSpaces t.objectSpace = some sp)
    (h4 : ctx.userResult = .ok a)
    (h5 : a ≠ systemAccount)
    (h6 : t.objectSpace ∉ (recGet st.allowedSpaces a).getD []) :
    tx ctx st t = (st, .error .forbidden) := by
  have hm : maintained ctx st t = st := by simp [maintained, h2]
  have he : effectiveSpace ctx t = t.objectSpace := by simp [effectiveSpace, h2]
  cases hr : recGet st.allowedSpaces a with
  | none => simp [tx, h1, hm, he, h3, h4, h5, hr]
  | some l =>
    have h6a : t.objectSpace ∉ l := by simpa [hr] using h6
    simp [tx, h1, hm, he, h3, h4, h5, hr, h6a]

def ctxC1 : SessionContext := ⟨.ok "B", fun c => c == "S", [], [], fun _ => none⟩

def stC1 : SpaceSecurityMiddleware := ⟨[], [("P", some ⟨"P", true, ["A"]⟩)], []⟩

def txC1 : Tx := ⟨.updateDoc, "S", "P", "P", ⟨false, []⟩, ⟨none, none, some (.one "C"), none⟩⟩

/-- Claim C1, counterexample: a space-class update transaction on tracked
private space `P` (`$push` of member `C`) by non-member `B` is rejected with
Forbidden, yet the index is mutated — the maintenance dispatch ran before
the check and linked `C` to `P` — so a rejected transaction does not leave
the `AccessIndex` as it was. -/
theorem tx_rejection_mutates_index :
    (tx ctxC1 stC1 txC1).2 = .error .forbidden
  ∧ (tx ctxC1 stC1 txC1).1 ≠ stC1
  ∧ privGet stC1.privateSpaces txC1.objectSpace = some ⟨"P", true, ["A"]⟩
  ∧ ctxC1.userResult = .ok "B"
  ∧ ("B" : Ref) ≠ systemAccount
  ∧ recGet stC1.allowedSpaces "B" = none :=
  ⟨rfl, by decide, rfl, rfl, by decide, rfl⟩

def ctxC1w : SessionContext := ⟨.ok "B", fun _ => false, [], [], fun _ => none⟩

def stC1w : SpaceSecurityMiddleware := ⟨[("A", ["P"])], [("P", some ⟨"P", true, ["A"]⟩)], []⟩

def txC1w : Tx := ⟨.updateDoc, "X", "D", "P", ⟨false, []⟩, ⟨none, none, none, none⟩⟩

/-- Claim C1, witness: the amended theorem applied to a concrete non-space
write into tracked private space `P` by non-member `B`. -/
theorem tx_private_nonmember_rejected_witness :
    tx ctxC1w stC1w txC1w = (stC1w, .error .forbidden) :=
  tx_private_nonmember_rejected ctxC1w stC1w txC1w "B" ⟨"P", true, ["A"]⟩
    rfl rfl rfl rfl (by decide) (by decide)

/-- Claim C3 (amended): the authorization check fires only when the
transaction's `objectSpace` is tracked private (in the post-maintenance
index); in that case the effective space — `objectId` for a Space-derived
object class, `objectSpace` otherwise — must be linked to the resolved
non-system caller in `allowedSpaces`, or `tx` fails with Forbidden and the
transaction is not forwarded. -/
theorem tx_effective_check_gated_on_objectSpace (ctx : SessionContext)
    (st : SpaceSecurityMiddleware) (t : Tx) (a : Ref) (sp : Space)
    (h1 : isTxCUD t.txClass = true)
    (h3 : privGet (maintained ctx st t).privateSpaces t.objectSpace = some sp)
    (h4 : ctx.userResult = .ok a)
    (h5 : a ≠ systemAccount)
    (h6 : effectiveSpace ctx t ∉ (recGet (maintained ctx st t).allowedSpaces a).getD []) :
    tx ctx st t = (maintained ctx st t, .error .forbidden) := by
  cases hr : recGet (maintained ctx st t).allowedSpaces a with
  | none => simp [tx, h1, h3, h4, h5, hr]
  | some l =>
    have h6a : effectiveSpace ctx t ∉ l := by simpa [hr] using h6
    simp [tx, h1, h3, h4, h5, hr, h6a]

def ctxC3 : SessionContext := ⟨.ok "B", fun c => c == "S", [], [], fun _ => none⟩

def stC3 : SpaceSecurityMiddleware := ⟨[], [("P", some ⟨"P", true, ["A"]⟩)], ["Q"]⟩

def txC3 : Tx := ⟨.updateDoc, "S", "P", "Q", ⟨false, []⟩, ⟨none, none, none, none⟩⟩

/-- Claim C3, counterexample: a space-class update whose effective space
(`objectId = P`) is tracked private, issued by non-member, non-system `B`
with no `allowedSpaces` entry, is nevertheless forwarded (`.ok`) because the
check is gated on `objectSpace = Q`, which is not tracked private. -/
theorem tx_untracked_objectSpace_skips_check :
    tx ctxC3 stC3 txC3 = (stC3, .ok none)
  ∧ effectiveSpace ctxC3 txC3 = "P"
  ∧ privGet stC3.privateSpaces "P" = some ⟨"P", true, ["A"]⟩
  ∧ ctxC3.userResult = .ok "B"
  ∧ ("B" : Ref) ≠ systemAccount
  ∧ recGet stC3.allowedSpaces "B" = none :=
  ⟨rfl, rfl, rfl, rfl, by decide, rfl⟩

def ctxC3w : SessionContext := ⟨.ok "B", fun c => c == "S", [], [], fun _ => none⟩

def stC3w : SpaceSecurityMiddleware :=
  ⟨[("B", ["Q"])], [("P", some ⟨"P", true, ["A"]⟩), ("Q", some ⟨"Q", true, ["B"]⟩)], []⟩

def txC3w : Tx := ⟨.updateDoc, "S", "P", "Q", ⟨false, []⟩, ⟨none, none, none, none⟩⟩

/-- Claim C3, witness: with `objectSpace = Q` tracked private, caller `B` is
a member of `Q` but the effective space checked is `objectId = P`, so the
space-class update is rejected with Forbidden. -/
theorem tx_effective_check_gated_witness :
    tx ctxC3w stC3w txC3w = (maintained ctxC3w stC3w txC3w, .error .forbidden) :=
  tx_effective_check_gated_on_objectSpace ctxC3w stC3w txC3w "B" ⟨"Q", true, ["B"]⟩
    rfl rfl rfl (by decide) (by decide)

/-! Correspondence of the effectful availability check with its pure rule. -/

theorem isUnavailable_ok (ctx : SessionContext) (st : SpaceSecurityMiddleware)
    (sp a : Ref) (h : ctx.userResult = .ok a) :
    isUnavailable ctx st sp = .ok (isUnavailablePure st a sp) := by
  unfold isUnavailable isUnavailablePure
  cases hp : privGet st.privateSpaces sp
  · rfl
  · rw [h]
    by_cases hs : a = systemAccount
    · simp [hs]
    · simp [hs]

theorem filterArr_ok (ctx : SessionContext) (st : SpaceSecurityMiddleware)
    (a : Ref) (h : ctx.userResult = .ok a) (l : List SubDoc) :
    filterArr ctx st l = .ok (l.filter (fun d => !(isUnavailablePure st a d.space))) := by
  induction l with
  | nil => rfl
  | cons d ds ih =>
    simp only [filterArr, isUnavailable_ok ctx st d.space a h, ih]
    cases hu : isUnavailablePure st a d.space
    · simp [List.filter_cons, hu]
    · simp [List.filter_cons, hu]

theorem filterVal_ok (ctx : SessionContext) (st : SpaceSecurityMiddleware)
    (a : Ref) (h : ctx.userResult = .ok a) :
    ∀ v : LookupVal, filterVal ctx st v = .ok (filterValPure st a v)
  | .arr l => by simp [filterVal, filterArr_ok ctx st a h, filterValPure]
  | .single (some d) => by
    simp [filterVal, isUnavailable_ok ctx st d.space a h, filterValPure]
  | .single none => rfl

theorem filterLookup_ok (ctx : SessionContext) (st : SpaceSecurityMiddleware)
    (a : Ref) (h : ctx.userResult = .ok a) :
    ∀ lk : List (String × LookupVal),
    filterLookup ctx st lk = .ok (filterLookupPure st a lk) := by
  intro lk
  induction lk with
  | nil => rfl
  | cons p rest ih =>
    obtain ⟨k, v⟩ := p
    simp [filterLookup, filterVal_ok ctx st a h v, ih, filterLookupPure]

theorem isUnavailablePure_system (st : SpaceSecurityMiddleware) (sp : Ref) :
    isUnavailablePure st systemAccount sp = false := by
  unfold isUnavailablePure
  cases privGet st.privateSpaces sp <;> simp

theorem filterValPure_system (st : SpaceSecurityMiddleware) :
    ∀ v : LookupVal, filterValPure st systemAccount v = v
  | .arr l => by simp [filterValPure, isUnavailablePure_system]
  | .single (some d) => by simp [filterValPure, isUnavailablePure_system]
  | .single none => rfl

theorem filterLookupPure_system (st : SpaceSecurityMiddleware)
    (lk : List (String × LookupVal)) : filterLookupPure st systemAccount lk = lk := by
  unfold filterLookupPure
  induction lk with
  | nil => rfl
  | cons p rest ih => simp [filterValPure_system, ih]

/-- Whether an `Except` outcome is a success. -/
def isOkE {α : Type} : Except PlatformErr α → Bool
  | .ok _ => true
  | .error _ => false

/-- Claim C5: `findAll` rejects a literal `space` id outside the permitted
set with Forbidden; `mergeQuery` replaces an `$in` constraint by its
intersection with the permitted set; a query with no `space` constraint is
constrained to exactly the caller's allowed spaces, the caller's account id
as a pseudo-space, the public spaces and the system spaces. -/
theorem findAll_space_rewrites :
    (∀ (ctx : SessionContext) (st : SpaceSecurityMiddleware) (s : Ref) (b : Bool),
      s ∉ getAllAllowedSpaces ctx st →
      findAll ctx st ⟨some (.lit s)⟩ b = .error .forbidden)
  ∧ (∀ (ctx : SessionContext) (st : SpaceSecurityMiddleware) (l : List Ref),
      mergeQuery ctx st (.obj (some l))
        = .ok (.obj (some (l.filter (fun p => (getAllAllowedSpaces ctx st).contains p)))))
  ∧ (∀ (ctx : SessionContext) (st : SpaceSecurityMiddleware) (a : Ref),
      ctx.userResult = .ok a →
      findAll ctx st ⟨none⟩ false
        = .ok (ctx.docs.filter (fun d =>
            (((recGet st.allowedSpaces a).getD []) ++ [a] ++ st.publicSpaces
              ++ systemSpaces).contains d.space))) := by
  refine ⟨?_, ?_, ?_⟩
  · intro ctx st s b h
    simp [findAll, mergeQuery, h]
  · intro ctx st l
    rfl
  · intro ctx st a h
    simp [findAll, getAllAllowedSpaces, h, matchesSpace]

def ctxC5 : SessionContext :=
  ⟨.ok "A", fun _ => false, [], [⟨"P", none⟩, ⟨"pub", none⟩, ⟨"W", none⟩], fun _ => none⟩

def stC5 : SpaceSecurityMiddleware :=
  ⟨[("A", ["P"])], [("P", some ⟨"P", true, ["A"]⟩)], ["pub"]⟩

/-- Claim C5, witness: the three rewrite rules applied at a concrete index
and caller. -/
theorem findAll_space_rewrites_witness :
    findAll ctxC5 stC5 ⟨some (.lit "Z")⟩ false = .error .forbidden
  ∧ mergeQuery ctxC5 stC5 (.obj (some ["P", "Z"]))
      = .ok (.obj (some (["P", "Z"].filter (fun p => (getAllAllowedSpaces ctxC5 stC5).contains p))))
  ∧ findAll ctxC5 stC5 ⟨none⟩ false
      = .ok (ctxC5.docs.filter (fun d =>
          (((recGet stC5.allowedSpaces "A").getD []) ++ ["A"] ++ stC5.publicSpaces
            ++ systemSpaces).contains d.space)) :=
  ⟨findAll_space_rewrites.1 ctxC5 stC5 "Z" false (by decide),
   findAll_space_rewrites.2.1 ctxC5 stC5 ["P", "Z"],
   findAll_space_rewrites.2.2 ctxC5 stC5 "A" rfl⟩

/-- Claim C6 (amended): the system account bypasses the write path — `tx`
never fails for it — and lookup filtering — `filterLookup` withholds
nothing — but the read-path query rewrite treats it like any other account,
so a literal query for a private space it is not linked to still fails with
Forbidden (see the counterexample). -/
theorem system_account_write_and_lookup_bypass :
    (∀ (ctx : SessionContext) (st : SpaceSecurityMiddleware) (t : Tx),
      ctx.userResult = .ok systemAccount → isOkE (tx ctx st t).2 = true)
  ∧ (∀ (ctx : SessionContext) (st : SpaceSecurityMiddleware)
      (lk : List (String × LookupVal)),
      ctx.userResult = .ok systemAccount → filterLookup ctx st lk = .ok lk) := by
  refine ⟨?_, ?_⟩
  · intro ctx st t h
    cases hc : isTxCUD t.txClass
    · simp [tx, hc, isOkE]
    · cases hp : privGet (maintained ctx st t).privateSpaces t.objectSpace
      · simp [tx, hc, hp, isOkE]
      · simp [tx, hc, hp, h, isOkE]
  · intro ctx st lk h
    rw [filterLookup_ok ctx st systemAccount h lk, filterLookupPure_system]

def ctxC6 : SessionContext := ⟨.ok systemAccount, fun _ => false, [], [], fun _ => none⟩

def stC6 : SpaceSecurityMiddleware := ⟨[], [("P", some ⟨"P", true, ["A"]⟩)], []⟩

/-- Claim C6, counterexample: the system account querying the tracked
private space `P` by literal id is rejected with Forbidden —
`getAllAllowedSpaces` gives the system account no special treatment, so the
read path does not bypass the checks. -/
theorem system_account_read_path_forbidden :
    mergeQuery ctxC6 stC6 (.lit "P") = .error .forbidden
  ∧ ctxC6.userResult = .ok systemAccount :=
  ⟨rfl, rfl⟩

def ctxC6w : SessionContext := ⟨.ok systemAccount, fun _ => false, [], [], fun _ => none⟩

def stC6w : SpaceSecurityMiddleware := ⟨[], [("P", some ⟨"P", true, ["A"]⟩)], []⟩

/-- Claim C6, witness: the bypass theorem at a concrete write into a
private space and a concrete lookup record from a private space. -/
theorem system_account_bypass_witness :
    isOkE (tx ctxC6w stC6w ⟨.updateDoc, "X", "D", "P", ⟨false, []⟩, ⟨none, none, none, none⟩⟩).2 = true
  ∧ filterLookup ctxC6w stC6w [("emp", .single (some ⟨"d", "P"⟩))]
      = .ok [("emp", .single (some ⟨"d", "P"⟩))] :=
  ⟨system_account_write_and_lookup_bypass.1 ctxC6w stC6w _ rfl,
   system_account_write_and_lookup_bypass.2 ctxC6w stC6w _ rfl⟩

/-- Claim C7 (amended): whenever the caller's account resolves,
`filterLookup` raises no error and rewrites each entry exactly by the
query-path availability rule — array entries keep precisely the available
sub-objects, single entries are nulled exactly when unavailable; when
resolution fails and an entry's space is tracked private, the resolution
error propagates out of `filterLookup` (see the counterexample). -/
theorem filterLookup_resolved_filters_exactly :
    (∀ (ctx : SessionContext) (st : SpaceSecurityMiddleware) (sp a : Ref),
      ctx.userResult = .ok a →
      isUnavailable ctx st sp = .ok (isUnavailablePure st a sp))
  ∧ (∀ (ctx : SessionContext) (st : SpaceSecurityMiddleware) (a : Ref)
      (lk : List (String × LookupVal)), ctx.userResult = .ok a →
      filterLookup ctx st lk = .ok (filterLookupPure st a lk)) :=
  ⟨fun ctx st sp a h => isUnavailable_ok ctx st sp a h,
   fun ctx st a lk h => filterLookup_ok ctx st a h lk⟩

def ctxC7 : SessionContext := ⟨.error .resolutionFailed, fun _ => false, [], [], fun _ => none⟩

def stC7 : SpaceSecurityMiddleware := ⟨[], [("P", some ⟨"P", true, []⟩)], []⟩

/-- Claim C7, counterexample: with an unresolvable caller and a lookup entry
whose space `P` is tracked private, `filterLookup` raises the resolution
error instead of never raising. -/
theorem filterLookup_raises_on_resolution_failure :
    filterLookup ctxC7 stC7 [("emp", .single (some ⟨"d", "P"⟩))]
      = .error .resolutionFailed
  ∧ ctxC7.userResult = .error .resolutionFailed :=
  ⟨rfl, rfl⟩

def ctxC7w : SessionContext := ⟨.ok "A", fun _ => false, [], [], fun _ => none⟩

def stC7w : SpaceSecurityMiddleware :=
  ⟨[("A", ["P"])], [("P", some ⟨"P", true, ["A"]⟩), ("R", some ⟨"R", true, ["B"]⟩)], []⟩

/-- Claim C7, witness: the amended theorem at a concrete resolved caller
and a lookup with an array entry and a single entry. -/
theorem filterLookup_resolved_witness :
    isUnavailable ctxC7w stC7w "R" = .ok (isUnavailablePure stC7w "A" "R")
  ∧ filterLookup ctxC7w stC7w
      [("c", .arr [⟨"d1", "P"⟩, ⟨"d2", "R"⟩]), ("e", .single (some ⟨"d3", "R"⟩))]
      = .ok (filterLookupPure stC7w "A"
          [("c", .arr [⟨"d1", "P"⟩, ⟨"d2", "R"⟩]), ("e", .single (some ⟨"d3", "R"⟩))]) :=
  ⟨filterLookup_resolved_filters_exactly.1 ctxC7w stC7w "R" "A" rfl,
   filterLookup_resolved_filters_exactly.2 ctxC7w stC7w "A" _ rfl⟩

/-- Claim C8 (amended): on the read path a resolution failure is not itself
propagated — the permitted set degrades to exactly the public plus system
spaces, and an unconstrained query succeeds against that degraded set
(though a query naming a literal space outside it still fails with
Forbidden, see the counterexample); on the write path the resolution
failure propagates out of `tx`, and the transaction is not forwarded,
exactly when the transaction's `objectSpace` is tracked private in the
post-maintenance index: for a Space-derived object class the maintenance
dispatch runs before the gate and can itself untrack the `objectSpace`
(e.g. a private-to-public flip), in which case the resolver is never
consulted and the transaction is forwarded despite the unresolvable
actor. -/
theorem resolution_failure_read_write_asymmetry :
    (∀ (ctx : SessionContext) (st : SpaceSecurityMiddleware) (e : PlatformErr),
      ctx.userResult = .error e →
      getAllAllowedSpaces ctx st = st.publicSpaces ++ systemSpaces)
  ∧ (∀ (ctx : SessionContext) (st : SpaceSecurityMiddleware) (e : PlatformErr),
      ctx.userResult = .error e →
      findAll ctx st ⟨none⟩ false
        = .ok (ctx.docs.filter (fun d =>
            (st.publicSpaces ++ systemSpaces).contains d.space)))
  ∧ (∀ (ctx : SessionContext) (st : SpaceSecurityMiddleware) (t : Tx)
      (e : PlatformErr) (sp : Space),
      ctx.userResult = .error e →
      isTxCUD t.txClass = true →
      privGet (maintained ctx st t).privateSpaces t.objectSpace = some sp →
      tx ctx st t = (maintained ctx st t, .error e))
  ∧ (∀ (ctx : SessionContext) (st : SpaceSecurityMiddleware) (t : Tx),
      isTxCUD t.txClass = true →
      privGet (maintained ctx st t).privateSpaces t.objectSpace = none →
      tx ctx st t = (maintained ctx st t, .ok none)) := by
  refine ⟨?_, ?_, ?_, ?_⟩
  · intro ctx st e h
    simp [getAllAllowedSpaces, h]
  · intro ctx st e h
    simp [findAll, getAllAllowedSpaces, h, matchesSpace]
  · intro ctx st t e sp h h1 hp
    simp [tx, h1, hp, h]
  · intro ctx st t h1 hp
    simp [tx, h1, hp]

def ctxC8 : SessionContext :=
  ⟨.error .resolutionFailed, fun _ => false, [], [⟨"pub", none⟩, ⟨"P", none⟩], fun _ => none⟩

def stC8 : SpaceSecurityMiddleware := ⟨[], [("P", some ⟨"P", true, ["A"]⟩)], ["pub"]⟩

/-- Claim C8, counterexample: with an unresolvable caller, `findAll` is not
error-free — a query constraining `space` to the literal private id `P`
fails with Forbidden against the degraded permitted set. -/
theorem findAll_forbidden_on_degraded_set :
    findAll ctxC8 stC8 ⟨some (.lit "P")⟩ false = .error .forbidden
  ∧ ctxC8.userResult = .error .resolutionFailed :=
  ⟨rfl, rfl⟩

def ctxC8w : SessionContext :=
  ⟨.error .resolutionFailed, fun c => c == "S", [], [⟨"pub", none⟩, ⟨"P", none⟩], fun _ => none⟩

def stC8w : SpaceSecurityMiddleware := ⟨[("A", ["P"])], [("P", some ⟨"P", true, ["A"]⟩)], ["pub"]⟩

def txC8w : Tx := ⟨.updateDoc, "S", "P", "P", ⟨false, []⟩, ⟨none, none, none, none⟩⟩

def txC8f : Tx := ⟨.updateDoc, "S", "P", "P", ⟨false, []⟩, ⟨some false, none, none, none⟩⟩

/-- Claim C8, witness: the asymmetry theorem at a concrete unresolvable
caller — the degraded permitted set, a successful unconstrained read, a
propagated failure on a Space-derived write whose `objectSpace` `P` stays
tracked private through maintenance, and a forwarded (`.ok`) Space-derived
write whose private-to-public flip untracks `P` before the gate. -/
theorem resolution_failure_asymmetry_witness :
    getAllAllowedSpaces ctxC8w stC8w = stC8w.publicSpaces ++ systemSpaces
  ∧ findAll ctxC8w stC8w ⟨none⟩ false
      = .ok (ctxC8w.docs.filter (fun d =>
          (stC8w.publicSpaces ++ systemSpaces).contains d.space))
  ∧ tx ctxC8w stC8w txC8w = (stC8w, .error .resolutionFailed)
  ∧ tx ctxC8w stC8w txC8f = (maintained ctxC8w stC8w txC8f, .ok none) :=
  ⟨resolution_failure_read_write_asymmetry.1 ctxC8w stC8w .resolutionFailed rfl,
   resolution_failure_read_write_asymmetry.2.1 ctxC8w stC8w .resolutionFailed rfl,
   resolution_failure_read_write_asymmetry.2.2.1 ctxC8w stC8w txC8w .resolutionFailed
     ⟨"P", true, ["A"]⟩ rfl rfl rfl,
   resolution_failure_read_write_asymmetry.2.2.2 ctxC8w stC8w txC8f rfl rfl⟩

/-- Claim C10: an `$in` space constraint never yields Forbidden — when every
listed id is outside the permitted set the filter is reduced to the empty
list, under which no document matches — whereas the same single denied id
written as a literal constraint makes `mergeQuery` fail with Forbidden. -/
theorem mergeQuery_inSet_vs_literal :
    (∀ (ctx : SessionContext) (st : SpaceSecurityMiddleware) (l : List Ref),
      ∃ l2, mergeQuery ctx st (.obj (some l)) = .ok (.obj (some l2)))
  ∧ (∀ (ctx : SessionContext) (st : SpaceSecurityMiddleware) (l : List Ref),
      (∀ p ∈ l, p ∉ getAllAllowedSpaces ctx st) →
      mergeQuery ctx st (.obj (some l)) = .ok (.obj (some [])))
  ∧ (∀ s : Ref, matchesSpace (.obj (some [])) s = false)
  ∧ (∀ (ctx : SessionContext) (st : SpaceSecurityMiddleware) (p : Ref),
      p ∉ getAllAllowedSpaces ctx st →
      mergeQuery ctx st (.lit p) = .error .forbidden) := by
  refine ⟨?_, ?_, ?_, ?_⟩
  · intro ctx st l
    exact ⟨_, rfl⟩
  · intro ctx st l h
    have hf : l.filter (fun p => (getAllAllowedSpaces ctx st).contains p) = [] :=
      List.filter_eq_nil_iff.2 (fun p hp => by simpa using h p hp)
    simp only [mergeQuery, hf]
  · intro s
    rfl
  · intro ctx st p h
    simp [mergeQuery, h]

def ctxC10 : SessionContext := ⟨.ok "B", fun _ => false, [], [], fun _ => none⟩

def stC10 : SpaceSecurityMiddleware := ⟨[], [("P", some ⟨"P", true, ["A"]⟩)], []⟩

/-- Claim C10, witness: for caller `B`, the denied id `P` inside an `$in`
list is silently dropped (empty result filter), while the same id as a
literal constraint is rejected with Forbidden. -/
theorem mergeQuery_inSet_vs_literal_witness :
    mergeQuery ctxC10 stC10 (.obj (some ["P"])) = .ok (.obj (some []))
  ∧ matchesSpace (.obj (some [])) "P" = false
  ∧ mergeQuery ctxC10 stC10 (.lit "P") = .error .forbidden :=
  ⟨mergeQuery_inSet_vs_literal.2.1 ctxC10 stC10 ["P"] (by decide),
   mergeQuery_inSet_vs_literal.2.2.1 "P",
   mergeQuery_inSet_vs_literal.2.2.2 ctxC10 stC10 "P" (by decide)⟩
